import Mathlib

/-!
Shallow embedding of the transaction-effect core of LiskHQ/lisk-js:

* `packages/lisk-transactions/src/base_transaction.ts` — transaction
  lifecycle (`apply`, `undo`, `getBytes`, `validate`);
* `packages/lisk-blockchain/src/vote.ts` — the vote-weight side-effect
  families (`applyAmount`/`undoAmount`, `applyFee`/`undoFee`,
  `applyNewVote`/`undoNewVote`, `applyVote`/`undoVote`) and the
  CandidateIndex key (`candidateKey`).

Modelling conventions:

* `BigNum` arbitrary-precision decimal values (balances, amounts, fees,
  vote weights) are embedded as `Int`; `BigNum.add`/`BigNum.sub` are exact,
  so `Int` addition/subtraction models them exactly.
* Byte buffers are `List Nat` (each entry one byte).
* The external cryptography package is consumed as opaque: decoded key and
  signature buffers are carried directly as byte lists, and
  `getAddressFromPublicKey` is an explicit function parameter `addrOf`.
* The external `StateStore` (not under the embedded sources; modelled from
  the spec's contract, §6: `get` fails with NotFound when absent, `set` is
  an upsert, `replace` is an atomic rekey) is a triple of bucket maps.
* Fallible store access is `Except StoreErr`.
-/

namespace LiskJS

/-- Account record (spec §3): address, public key, optional second public
key, balance, the optional list of delegate public keys this account
currently votes for, and (for delegates) the optional accumulated vote
weight `votes`.  Optional fields mirror the TypeScript optionals. -/
structure Account where
  address : String
  publicKey : String
  secondPublicKey : Option String := none
  balance : Int := 0
  votedDelegatesPublicKeys : Option (List String) := none
  votes : Option Int := none
deriving DecidableEq

/-- `delegate.votes || '0'`: the weight used for arithmetic, defaulting the
absent field to zero. -/
def votesOr0 (o : Option Int) : Int := o.getD 0

/-- The string form of a stored weight as it reaches `candidateKey`:
`delegate.votes as string` is the raw field, which is the decimal string of
the stored integer, or the string "undefined" when the field is absent
(JavaScript template-string coercion of `undefined`). -/
def votesStr (o : Option Int) : String :=
  match o with
  | some v => toString v
  | none => "undefined"

/-! ### base_transaction.ts : the transaction entity -/

/-- `BaseTransaction` fields used by the embedded operations.  Hex-encoded
fields (`senderPublicKey`, `signature`, `signSignature`) are carried as the
byte lists that `hexToBuffer` (opaque cryptography) decodes them to;
`recipientId` is the address numeral string ending in "L", with the empty
string standing for the absent/falsy value; the private `applied` flag is
the mutable per-instance state threaded explicitly. -/
structure BaseTransaction where
  type : Nat
  timestamp : Int
  senderPublicKey : List Nat
  recipientId : String := ""
  amount : Int := 0
  fee : Int := 0
  signature : Option (List Nat) := none
  signSignature : Option (List Nat) := none
  applied : Bool := false
deriving DecidableEq

/-- `apply(sender)`: if the transaction is already applied, return the
sender unchanged; otherwise subtract the fee from the sender's balance and
set the `applied` flag.  The mutation of `this.applied` is modelled by
returning the updated transaction alongside the updated account. -/
def BaseTransaction.apply (tx : BaseTransaction) (sender : Account) :
    BaseTransaction × Account :=
  if tx.applied then (tx, sender)
  else
    ({ tx with applied := true },
     { sender with balance := sender.balance - tx.fee })

/-- `undo(sender)`: if the transaction was never applied, return the sender
unchanged; otherwise add the fee back to the balance.  Note that the source
does NOT reset the `applied` flag here. -/
def BaseTransaction.undo (tx : BaseTransaction) (sender : Account) :
    BaseTransaction × Account :=
  if !tx.applied then (tx, sender)
  else (tx, { sender with balance := sender.balance + tx.fee })

/-! ### base_transaction.ts : getBytes -/

/-- Little-endian byte encoding of a natural number into exactly `size`
bytes (higher bytes beyond `size` are truncated, as a fixed-size buffer
write would). -/
def natToLEBytes : Nat → Nat → List Nat
  | 0, _ => []
  | size + 1, v => (v % 256) :: natToLEBytes size (v / 256)

/-- Big-endian byte encoding of a natural number into exactly `size`
bytes. -/
def natToBEBytes (size v : Nat) : List Nat := (natToLEBytes size v).reverse

/-- `Buffer.writeIntLE(value, 0, 4)`: 4 little-endian bytes of the value's
32-bit two's complement. -/
def writeIntLE4 (v : Int) : List Nat := natToLEBytes 4 ((v % (2 ^ 32 : Int)).toNat)

/-- `lisk-cryptography.bigNumberToBuffer(numeral, size)` (opaque numeric
helper, `BigNum.toBuffer({size})`): big-endian fixed-size buffer of a
non-negative numeral. -/
def bigNumberToBuffer (size : Nat) (v : Nat) : List Nat := natToBEBytes size v

/-- `BigNum.toBuffer({endian: 'little', size})` for the non-negative
amounts the protocol carries. -/
def bigNumToBufferLE (size : Nat) (v : Int) : List Nat := natToLEBytes size v.toNat

/-- Decimal numeral parsing as `new BigNum(string)` performs it on a string
of decimal digits. -/
def parseDecNat (s : String) : Nat :=
  s.data.foldl (fun acc c => acc * 10 + (c.toNat - 48)) 0

/-- `s.slice(0, -1)`: the string without its final character. -/
def sliceDropLast (s : String) : String := String.mk s.data.dropLast

/-- The nonempty-string test `typeof s === 'string' && s.length > 0` that
`toJSON` applies to signatures, on the decoded byte form: an empty
signature behaves as absent. -/
def nonemptyBytes (o : Option (List Nat)) : Option (List Nat) :=
  match o with
  | some l => if l = [] then none else some l
  | none => none

/-- The `signature` field of `toJSON()`: present only when the transaction
carries a nonempty primary signature. -/
def toJSONSignature (tx : BaseTransaction) : Option (List Nat) :=
  nonemptyBytes tx.signature

/-- The `signSignature` field of `toJSON()`: `toJSON` returns the base
object (without either signature field) when the primary signature is
absent, so the secondary signature only survives when the primary one is
present and nonempty. -/
def toJSONSignSignature (tx : BaseTransaction) : Option (List Nat) :=
  match nonemptyBytes tx.signature with
  | none => none
  | some _ => nonemptyBytes tx.signSignature

/-- Byte sizes from `constants.ts` (file not among the embedded sources).
Modelled from the spec: type 1 byte, timestamp 4 bytes, recipient id
8 bytes, amount 8 bytes (spec §4.1/§6 signable byte layout). -/
def BYTESIZES_TYPE : Nat := 1

/-- Timestamp byte width (spec §6). -/
def BYTESIZES_TIMESTAMP : Nat := 4

/-- Recipient-id byte width (spec §6). -/
def BYTESIZES_RECIPIENT_ID : Nat := 8

/-- Amount byte width (spec §6). -/
def BYTESIZES_AMOUNT : Nat := 8

/-- `getBytes()`: translated clause by clause from the source.  The
signature fields are taken from `toJSON()` (which couples the secondary
signature to the presence of the primary one); `Buffer.alloc(1, type)`
fills with the type coerced to one byte; the recipient id is encoded from
the address numeral with its trailing character dropped, or an 8-byte zero
buffer when the id is falsy (empty). -/
def BaseTransaction.getBytes (tx : BaseTransaction) : List Nat :=
  let signature := toJSONSignature tx
  let signSignature := toJSONSignSignature tx
  let transactionType := List.replicate BYTESIZES_TYPE (tx.type % 256)
  let transactionTimestamp := writeIntLE4 tx.timestamp
  let transactionSenderPublicKey := tx.senderPublicKey
  let transactionRecipientID :=
    if tx.recipientId ≠ "" then
      bigNumberToBuffer BYTESIZES_RECIPIENT_ID (parseDecNat (sliceDropLast tx.recipientId))
    else List.replicate BYTESIZES_RECIPIENT_ID 0
  let transactionAmount := bigNumToBufferLE BYTESIZES_AMOUNT tx.amount
  let transactionSignature := match signature with | some s => s | none => []
  let transactionSecondSignature := match signSignature with | some s => s | none => []
  transactionType ++ transactionTimestamp ++ transactionSenderPublicKey ++
    transactionRecipientID ++ transactionAmount ++ transactionSignature ++
    transactionSecondSignature

/-- The byte layout exactly as the claim words it: type, timestamp,
sender public key, recipient id (zero-filled when absent), amount, then
"the primary signature bytes (empty if absent), and the secondary
signature bytes (empty if absent)" — i.e. each signature contributes its
bytes whenever it is present, independently of the other. -/
def claimByteLayout (tx : BaseTransaction) : List Nat :=
  List.replicate 1 (tx.type % 256) ++ writeIntLE4 tx.timestamp ++
    tx.senderPublicKey ++
    (if tx.recipientId ≠ "" then
       bigNumberToBuffer 8 (parseDecNat (sliceDropLast tx.recipientId))
     else List.replicate 8 0) ++
    bigNumToBufferLE 8 tx.amount ++
    (nonemptyBytes tx.signature).getD [] ++
    (nonemptyBytes tx.signSignature).getD []

/-- The byte layout with the one amendment the source forces: the
secondary signature contributes bytes only when the primary signature is
also present (because `getBytes` reads both fields from `toJSON()`, which
omits the secondary signature whenever the primary one is missing). -/
def amendedByteLayout (tx : BaseTransaction) : List Nat :=
  List.replicate 1 (tx.type % 256) ++ writeIntLE4 tx.timestamp ++
    tx.senderPublicKey ++
    (if tx.recipientId ≠ "" then
       bigNumberToBuffer 8 (parseDecNat (sliceDropLast tx.recipientId))
     else List.replicate 8 0) ++
    bigNumToBufferLE 8 tx.amount ++
    (toJSONSignature tx).getD [] ++
    (toJSONSignSignature tx).getD []

/-! ### base_transaction.ts : validate -/

/-- Transaction error record: message and optional data path. -/
structure TransactionError where
  message : String
  dataPath : Option String := none
deriving DecidableEq

/-- Schema validator error (shape of the opaque external validator's
output). -/
structure SchemaError where
  dataPath : String
  message : String
deriving DecidableEq

/-- Return shape of `validate()`. -/
structure ValidateReturn where
  validated : Bool
  errors : Option (List TransactionError)
deriving DecidableEq

/-- Recognized transaction type tags from `constants.ts` (file not among
the embedded sources).  Modelled from the spec: transfer, in-transfer,
out-transfer, vote "and others" — the eight classic type tags 0–7. -/
def TRANSACTION_TYPES : List Nat := [0, 1, 2, 3, 4, 5, 6, 7]

/-- A single quote character, for the schema error message format. -/
def quoteChar : String := String.singleton (Char.ofNat 39)

/-- The mapping applied to each schema error:
`new TransactionError('<dataPath>' <message>, dataPath)`. -/
def mapSchemaError (e : SchemaError) : TransactionError :=
  { message := quoteChar ++ e.dataPath ++ quoteChar ++ " " ++ e.message,
    dataPath := some e.dataPath }

/-- The collected schema errors, `undefined` when the validator reported
none. -/
def mapSchemaErrors (errors : Option (List SchemaError)) :
    Option (List TransactionError) :=
  errors.map (List.map mapSchemaError)

/-- `validate()`: translated branch by branch.  The opaque external
collaborators are explicit arguments: `schemaValid`/`schemaErrors` are the
structural validator's output for this transaction and `sigVerified` is
the cryptographic verification result of the primary signature.  Branches:
an unrecognized type returns only the type error; otherwise a missing
(absent or empty, per `toJSON`) primary signature returns only the
missing-signature error; otherwise the result is the conjunction of schema
validity and signature verification with exactly the mapped schema
errors. -/
def BaseTransaction.validate (tx : BaseTransaction) (schemaValid : Bool)
    (schemaErrors : Option (List SchemaError)) (sigVerified : Bool) :
    ValidateReturn :=
  if tx.type ∉ TRANSACTION_TYPES then
    { validated := false,
      errors := some [{ message := "Invalid transaction type." }] }
  else
    let transactionErrors := mapSchemaErrors schemaErrors
    if nonemptyBytes tx.signature = none then
      { validated := false,
        errors := some
          [{ message := "Cannot validate transaction without signature." }] }
    else
      { validated := schemaValid && sigVerified, errors := transactionErrors }

/-! ### vote.ts : data model -/

/-- The in-transfer asset payload: the id of the prior dapp-registration
transaction. -/
structure InTransferAsset where
  dappId : String
deriving DecidableEq

/-- Type-specific asset payload: a vote transaction carries signed vote
directives (sign character concatenated with a delegate public key); an
in-transfer transaction carries `inTransfer.dappId`. -/
structure TransactionAsset where
  votes : Option (List String) := none
  inTransfer : Option InTransferAsset := none
deriving DecidableEq

/-- The `lisk-blockchain` transaction record, with the fields `vote.ts`
reads. -/
structure Transaction where
  id : String := ""
  type : Nat
  senderId : String
  recipientId : String := ""
  amount : Int := 0
  fee : Int := 0
  asset : TransactionAsset := {}
deriving DecidableEq

/-- Store failure: `get` rejects with NotFound for an absent key; a
TypeScript cast hitting an absent asset field raises a type error. -/
inductive StoreErr where
  | notFound
  | typeError
deriving DecidableEq

/-- The external `StateStore`, not among the embedded sources.  Modelled
from the spec (§6): three bucket namespaces — address to account,
candidate compound key to delegate address, transaction id to
transaction. -/
structure StateStore where
  accounts : String → Option Account
  candidates : String → Option String
  transactions : String → Option Transaction

/-- `set(BUCKET_ADDRESS_ACCOUNT, key, value)`: upsert into the account
bucket. -/
def setAccount (s : StateStore) (k : String) (v : Account) : StateStore :=
  { s with accounts := fun a => if a = k then some v else s.accounts a }

/-- `replace(BUCKET_CANDIDATE, oldKey, newKey, value)`: atomic rekey in
the candidate bucket — the old key is removed and the new key now maps to
the value. -/
def replaceCandidate (s : StateStore) (oldK newK v : String) : StateStore :=
  { s with candidates := fun k =>
      if k = newK then some v else if k = oldK then none else s.candidates k }

/-- Transaction type tags used by `vote.ts`, from the not-embedded
`constants.ts`.  Modelled from the spec and the repository's transaction
numbering (transfer 0, vote 3, in-transfer 6, out-transfer 7). -/
def TRANSACTION_TYPE_TRANSFER : Nat := 0

/-- Vote transaction type tag. -/
def TRANSACTION_TYPE_VOTE : Nat := 3

/-- In-transfer (transfer into dapp) transaction type tag. -/
def TRANSACTION_TYPE_IN_TRANSFER : Nat := 6

/-- Out-transfer transaction type tag. -/
def TRANSACTION_TYPE_OUT_TRANSFER : Nat := 7

/-- The type gate of `applyAmount`/`undoAmount`. -/
def transferTypes : List Nat :=
  [TRANSACTION_TYPE_TRANSFER, TRANSACTION_TYPE_IN_TRANSFER,
   TRANSACTION_TYPE_OUT_TRANSFER]

/-- `candidateKey(weight, publicKey)`: the CandidateIndex compound key,
the template string `weight:publicKey` — the unpadded decimal weight
string, a colon, and the delegate public key. -/
def candidateKey (weight publicKey : String) : String :=
  weight ++ ":" ++ publicKey

/-! ### vote.ts : effect families

Each family function performs only reads before the promise it returns
resolves: every `store.set`/`replace` sits inside an `async` callback
passed to `Array.prototype.forEach`, which does not await its callbacks,
so the per-delegate read-modify-write actions are still pending at
resolution time.  A family is therefore embedded as a computation of the
list of pending per-delegate actions (`DTask`, the delegate address
together with the signed weight delta the callback will add), and its
eventual settled effect on the store is the separate `settleTasks`
fold. -/

/-- A pending per-delegate update fired (but not awaited) by an effect
family: the delegate address and the signed delta its callback adds to the
delegate's weight. -/
structure DTask where
  address : String
  delta : Int
deriving DecidableEq

/-- One detached per-delegate callback, once it runs to completion: read
the delegate account (an absent account rejects), add the delta to its
weight (absent weight counting as zero), persist the updated account, and
atomically rekey its CandidateIndex entry from the old weight string to
the new one, keeping the delegate address as the value. -/
def settleTask (s : StateStore) (t : DTask) : Except StoreErr StateStore :=
  match s.accounts t.address with
  | none => Except.error StoreErr.notFound
  | some delegate =>
    let newVotes := votesOr0 delegate.votes + t.delta
    let updated := { delegate with votes := some newVotes }
    Except.ok (replaceCandidate (setAccount s t.address updated)
      (candidateKey (votesStr delegate.votes) delegate.publicKey)
      (candidateKey (toString newVotes) delegate.publicKey)
      delegate.address)

/-- The settled effect of a list of pending per-delegate updates, applied
in order.  When the delegate addresses are pairwise distinct — the case
the spec's effect families produce — each action reads and writes its own
delegate only, so any scheduling of the detached callbacks agrees with
this sequential fold. -/
def settleTasks : StateStore → List DTask → Except StoreErr StateStore
  | s, [] => Except.ok s
  | s, t :: ts =>
    match settleTask s t with
    | Except.error e => Except.error e
    | Except.ok s1 => settleTasks s1 ts

/-- The recipient-id resolution step of `applyAmount`/`undoAmount`: an
in-transfer transaction resolves the real recipient by looking up the
prior transaction referenced by `asset.inTransfer.dappId` in the
transaction bucket and taking that transaction's `senderId`; every other
transfer type uses the nominal `recipientId`. -/
def resolveAmountRecipientId (s : StateStore) (tx : Transaction) :
    Except StoreErr String :=
  if tx.type = TRANSACTION_TYPE_IN_TRANSFER then
    match tx.asset.inTransfer with
    | none => Except.error StoreErr.typeError
    | some it =>
      match s.transactions it.dappId with
      | none => Except.error StoreErr.notFound
      | some dappTx => Except.ok dappTx.senderId
  else Except.ok tx.recipientId

/-- `applyAmount` up to the resolution of its promise: no-op for
non-transfer types; otherwise resolve the recipient, read its account, and
fire one pending `+amount` update per delegate the recipient votes for. -/
def applyAmountTasks (addrOf : String → String) (s : StateStore)
    (tx : Transaction) : Except StoreErr (List DTask) :=
  if tx.type ∉ transferTypes then Except.ok []
  else
    match resolveAmountRecipientId s tx with
    | Except.error e => Except.error e
    | Except.ok recipientId =>
      match s.accounts recipientId with
      | none => Except.error StoreErr.notFound
      | some recipient =>
        let delegateAddresses :=
          (recipient.votedDelegatesPublicKeys.getD []).map addrOf
        Except.ok (delegateAddresses.map (fun a => DTask.mk a tx.amount))

/-- `undoAmount` up to the resolution of its promise: like `applyAmount`
with delta `-amount`. -/
def undoAmountTasks (addrOf : String → String) (s : StateStore)
    (tx : Transaction) : Except StoreErr (List DTask) :=
  if tx.type ∉ transferTypes then Except.ok []
  else
    match resolveAmountRecipientId s tx with
    | Except.error e => Except.error e
    | Except.ok recipientId =>
      match s.accounts recipientId with
      | none => Except.error StoreErr.notFound
      | some recipient =>
        let delegateAddresses :=
          (recipient.votedDelegatesPublicKeys.getD []).map addrOf
        Except.ok (delegateAddresses.map (fun a => DTask.mk a (-tx.amount)))

/-- `applyFee` up to the resolution of its promise — no type gate: read the
sender's account and fire one pending `-fee` update per delegate the
sender votes for. -/
def applyFeeTasks (addrOf : String → String) (s : StateStore)
    (tx : Transaction) : Except StoreErr (List DTask) :=
  match s.accounts tx.senderId with
  | none => Except.error StoreErr.notFound
  | some sender =>
    let delegateAddresses :=
      (sender.votedDelegatesPublicKeys.getD []).map addrOf
    Except.ok (delegateAddresses.map (fun a => DTask.mk a (-tx.fee)))

/-- `undoFee` up to the resolution of its promise: like `applyFee` with
delta `+fee`. -/
def undoFeeTasks (addrOf : String → String) (s : StateStore)
    (tx : Transaction) : Except StoreErr (List DTask) :=
  match s.accounts tx.senderId with
  | none => Except.error StoreErr.notFound
  | some sender =>
    let delegateAddresses :=
      (sender.votedDelegatesPublicKeys.getD []).map addrOf
    Except.ok (delegateAddresses.map (fun a => DTask.mk a tx.fee))

/-- `signedVote[0]`: the first character of a signed vote directive, when
there is one. -/
def signedVoteSign (v : String) : Option Char := v.data.head?

/-- `signedVote.slice(1)`: the directive without its sign character — the
delegate public key. -/
def signedVotePublicKey (v : String) : String := String.mk v.data.tail

/-- The upvote addresses of a vote transaction's directives: directives
whose sign character is `+`, each resolved to a delegate address. -/
def upvoteAddresses (addrOf : String → String) (votes : List String) :
    List String :=
  (votes.filter (fun sv => signedVoteSign sv = some '+')).map
    (fun sv => addrOf (signedVotePublicKey sv))

/-- The downvote addresses of a vote transaction's directives: directives
whose sign character is `-`. -/
def downvoteAddresses (addrOf : String → String) (votes : List String) :
    List String :=
  (votes.filter (fun sv => signedVoteSign sv = some '-')).map
    (fun sv => addrOf (signedVotePublicKey sv))

/-- `applyNewVote` up to the resolution of its promise: no-op for
non-vote types; otherwise read the sender's account, partition the
directives, and fire one pending update per upvoted delegate
(`+sender.balance`) followed by one per downvoted delegate
(`-sender.balance + fee`, the code's `.sub(balance).add(fee)`). -/
def applyNewVoteTasks (addrOf : String → String) (s : StateStore)
    (tx : Transaction) : Except StoreErr (List DTask) :=
  if tx.type ≠ TRANSACTION_TYPE_VOTE then Except.ok []
  else
    match s.accounts tx.senderId with
    | none => Except.error StoreErr.notFound
    | some sender =>
      match tx.asset.votes with
      | none => Except.error StoreErr.typeError
      | some votes =>
        let upvotes := upvoteAddresses addrOf votes
        let downvotes := downvoteAddresses addrOf votes
        Except.ok (upvotes.map (fun a => DTask.mk a sender.balance) ++
          downvotes.map (fun a => DTask.mk a (-sender.balance + tx.fee)))

/-- `undoNewVote` up to the resolution of its promise: upvoted delegates
get `-sender.balance`, downvoted delegates get `+sender.balance - fee`
(the code's `.add(balance).sub(fee)`). -/
def undoNewVoteTasks (addrOf : String → String) (s : StateStore)
    (tx : Transaction) : Except StoreErr (List DTask) :=
  if tx.type ≠ TRANSACTION_TYPE_VOTE then Except.ok []
  else
    match s.accounts tx.senderId with
    | none => Except.error StoreErr.notFound
    | some sender =>
      match tx.asset.votes with
      | none => Except.error StoreErr.typeError
      | some votes =>
        let upvotes := upvoteAddresses addrOf votes
        let downvotes := downvoteAddresses addrOf votes
        Except.ok (upvotes.map (fun a => DTask.mk a (-sender.balance)) ++
          downvotes.map (fun a => DTask.mk a (sender.balance - tx.fee)))

/-- The settled store after `applyAmount`'s pending updates all
complete. -/
def applyAmountSettled (addrOf : String → String) (s : StateStore)
    (tx : Transaction) : Except StoreErr StateStore :=
  match applyAmountTasks addrOf s tx with
  | Except.error e => Except.error e
  | Except.ok ts => settleTasks s ts

/-- The settled store after `undoAmount`'s pending updates all
complete. -/
def undoAmountSettled (addrOf : String → String) (s : StateStore)
    (tx : Transaction) : Except StoreErr StateStore :=
  match undoAmountTasks addrOf s tx with
  | Except.error e => Except.error e
  | Except.ok ts => settleTasks s ts

/-- The settled store after `applyFee`'s pending updates all complete. -/
def applyFeeSettled (addrOf : String → String) (s : StateStore)
    (tx : Transaction) : Except StoreErr StateStore :=
  match applyFeeTasks addrOf s tx with
  | Except.error e => Except.error e
  | Except.ok ts => settleTasks s ts

/-- The settled store after `undoFee`'s pending updates all complete. -/
def undoFeeSettled (addrOf : String → String) (s : StateStore)
    (tx : Transaction) : Except StoreErr StateStore :=
  match undoFeeTasks addrOf s tx with
  | Except.error e => Except.error e
  | Except.ok ts => settleTasks s ts

/-- The settled store after `applyNewVote`'s pending updates all
complete. -/
def applyNewVoteSettled (addrOf : String → String) (s : StateStore)
    (tx : Transaction) : Except StoreErr StateStore :=
  match applyNewVoteTasks addrOf s tx with
  | Except.error e => Except.error e
  | Except.ok ts => settleTasks s ts

/-- The settled store after `undoNewVote`'s pending updates all
complete. -/
def undoNewVoteSettled (addrOf : String → String) (s : StateStore)
    (tx : Transaction) : Except StoreErr StateStore :=
  match undoNewVoteTasks addrOf s tx with
  | Except.error e => Except.error e
  | Except.ok ts => settleTasks s ts

/-- `applyVote = Promise.all([applyFee, applyAmount, applyNewVote])` up to
the resolution of its promise: none of the three families writes to the
store before resolving (all writes are inside un-awaited `forEach`
callbacks), so the store visible at resolution is the input store and the
result is the combined list of still-pending per-delegate updates. -/
def applyVoteResolvedTasks (addrOf : String → String) (s : StateStore)
    (tx : Transaction) : Except StoreErr (List DTask) :=
  match applyFeeTasks addrOf s tx with
  | Except.error e => Except.error e
  | Except.ok f =>
    match applyAmountTasks addrOf s tx with
    | Except.error e => Except.error e
    | Except.ok a =>
      match applyNewVoteTasks addrOf s tx with
      | Except.error e => Except.error e
      | Except.ok v => Except.ok (f ++ a ++ v)

/-- `undoVote = Promise.all([undoFee, undoAmount, undoNewVote])` up to the
resolution of its promise. -/
def undoVoteResolvedTasks (addrOf : String → String) (s : StateStore)
    (tx : Transaction) : Except StoreErr (List DTask) :=
  match undoFeeTasks addrOf s tx with
  | Except.error e => Except.error e
  | Except.ok f =>
    match undoAmountTasks addrOf s tx with
    | Except.error e => Except.error e
    | Except.ok a =>
      match undoNewVoteTasks addrOf s tx with
      | Except.error e => Except.error e
      | Except.ok v => Except.ok (f ++ a ++ v)

/-! ### Concrete instances used by witnesses and counterexamples -/

/-- A freshly constructed concrete transaction (the constructor initializes
`applied := false`). -/
def txC1 : BaseTransaction :=
  { type := 0, timestamp := 12345, senderPublicKey := List.replicate 32 7,
    recipientId := "123L", amount := 500, fee := 10,
    signature := some [1, 2, 3] }

/-- A concrete sender account. -/
def senderC1 : Account :=
  { address := "16313739661670634666L", publicKey := "pkS", balance := 1000 }

/-- Counterexample transaction for the byte layout: no primary signature
but a present secondary signature. -/
def txC3 : BaseTransaction :=
  { type := 0, timestamp := 1, senderPublicKey := List.replicate 32 7,
    recipientId := "123L", amount := 5, fee := 9,
    signature := none, signSignature := some [171] }

/-- Witness transaction for the amended byte layout. -/
def txC3w : BaseTransaction :=
  { type := 0, timestamp := 2, senderPublicKey := List.replicate 32 9,
    recipientId := "45L", amount := 6, fee := 11,
    signature := some [17, 18], signSignature := some [19] }

/-- Counterexample transaction for `validate`: recognized type, missing
signature. -/
def txC7 : BaseTransaction :=
  { type := 0, timestamp := 0, senderPublicKey := List.replicate 32 1 }

/-- Witness transaction for the amended `validate` claim: recognized type,
signature present. -/
def txC7w : BaseTransaction :=
  { type := 0, timestamp := 0, senderPublicKey := List.replicate 32 1,
    signature := some [4] }

/-- A concrete schema error reported by the structural validator. -/
def schemaErrC7 : SchemaError := { dataPath := ".amount", message := "is invalid" }

/-- The empty state store. -/
def emptyStore : StateStore :=
  { accounts := fun _ => none, candidates := fun _ => none,
    transactions := fun _ => none }

/-- Upsert a transaction into the transaction bucket (store preparation for
witnesses). -/
def setTransaction (s : StateStore) (k : String) (v : Transaction) : StateStore :=
  { s with transactions := fun a => if a = k then some v else s.transactions a }

/-- Concrete sender for the vote-netting witness: balance 1000, votes for
the delegate being downvoted. -/
def senderC4 : Account :=
  { address := "S4", publicKey := "pkS4", balance := 1000,
    votedDelegatesPublicKeys := some ["p2"] }

/-- Upvoted delegate, weight 2000. -/
def delegate1C4 : Account :=
  { address := "p1", publicKey := "p1", votes := some 2000 }

/-- Downvoted delegate, weight 3000. -/
def delegate2C4 : Account :=
  { address := "p2", publicKey := "p2", votes := some 3000 }

/-- Store for the vote-netting witness; the address function is the
identity, so delegate addresses coincide with their public keys. -/
def storeC4 : StateStore :=
  setAccount (setAccount (setAccount emptyStore "S4" senderC4) "p1" delegate1C4)
    "p2" delegate2C4

/-- Vote transaction with one upvote for `p1` and one downvote for `p2`,
fee 10. -/
def txC4 : Transaction :=
  { type := 3, senderId := "S4", fee := 10,
    asset := { votes := some ["+" ++ "p1", "-" ++ "p2"] } }

/-- The prior dapp transaction referenced by the in-transfer witness: its
sender is `A5`. -/
def dappTxC5 : Transaction :=
  { id := "dapp5", type := 5, senderId := "A5" }

/-- The real (resolved) recipient of the in-transfer witness: votes for
delegate `pX`. -/
def resolvedC5 : Account :=
  { address := "A5", publicKey := "pkA5",
    votedDelegatesPublicKeys := some ["pX"] }

/-- The nominal recipient of the in-transfer witness: votes for delegate
`pY`, which must stay untouched. -/
def nominalC5 : Account :=
  { address := "N5", publicKey := "pkN5",
    votedDelegatesPublicKeys := some ["pY"] }

/-- Delegate voted for by the resolved recipient. -/
def delegateXC5 : Account := { address := "pX", publicKey := "pX", votes := some 100 }

/-- Delegate voted for by the nominal recipient. -/
def delegateYC5 : Account := { address := "pY", publicKey := "pY", votes := some 200 }

/-- Store for the in-transfer witness. -/
def storeC5 : StateStore :=
  setTransaction
    (setAccount (setAccount (setAccount (setAccount emptyStore "A5" resolvedC5)
      "N5" nominalC5) "pX" delegateXC5) "pY" delegateYC5)
    "dapp5" dappTxC5

/-- In-transfer transaction whose nominal recipient is `N5` but whose
asset references the dapp transaction sent by `A5`. -/
def txC5 : Transaction :=
  { type := 6, senderId := "S5", recipientId := "N5", amount := 500, fee := 10,
    asset := { inTransfer := some { dappId := "dapp5" } } }

/-- Sender for the fee-effect witness: votes for delegate `pF`. -/
def senderC6 : Account :=
  { address := "S6", publicKey := "pkS6", balance := 700,
    votedDelegatesPublicKeys := some ["pF"] }

/-- Delegate voted for by the fee-effect witness sender. -/
def delegateFC6 : Account := { address := "pF", publicKey := "pF", votes := some 400 }

/-- Store for the fee-effect witness. -/
def storeC6 : StateStore :=
  setAccount (setAccount emptyStore "S6" senderC6) "pF" delegateFC6

/-- A second-signature-type transaction (type 1, not a transfer and not a
vote) for the fee-effect witness: the fee effect must fire for it too. -/
def txC6 : Transaction := { type := 1, senderId := "S6", fee := 25 }

/-- Sender for the pending-write demonstration: votes for no delegate, so
the fee family contributes no pending update. -/
def senderC9 : Account :=
  { address := "S9", publicKey := "pkS9", balance := 900,
    votedDelegatesPublicKeys := some [] }

/-- Recipient for the pending-write demonstration: votes for delegate
`D9`. -/
def recipientC9 : Account :=
  { address := "R9", publicKey := "pkR9",
    votedDelegatesPublicKeys := some ["D9"] }

/-- The delegate whose weight the pending update will change. -/
def delegateC9 : Account := { address := "D9", publicKey := "D9", votes := some 0 }

/-- Store for the pending-write demonstration. -/
def storeC9 : StateStore :=
  setAccount (setAccount (setAccount emptyStore "S9" senderC9) "R9" recipientC9)
    "D9" delegateC9

/-- Plain transfer transaction for the pending-write demonstration. -/
def txC9 : Transaction :=
  { type := 0, senderId := "S9", recipientId := "R9", amount := 50, fee := 10 }

/-! ## Theorems -/

/-- C1: for every sender account and every (freshly constructed, hence
not-yet-applied) transaction, `undo` after `apply` restores the original
sender exactly — the whole account record, in particular the balance,
bit for bit. -/
theorem apply_undo_roundtrip (tx : BaseTransaction) (sender : Account)
    (h : tx.applied = false) :
    (BaseTransaction.undo (BaseTransaction.apply tx sender).1
      (BaseTransaction.apply tx sender).2).2 = sender := by
  cases sender
  simp [BaseTransaction.apply, BaseTransaction.undo, h]

/-- Witness for C1 at a concrete transaction and account. -/
theorem apply_undo_roundtrip_witness :
    (BaseTransaction.undo (BaseTransaction.apply txC1 senderC1).1
      (BaseTransaction.apply txC1 senderC1).2).2 = senderC1 :=
  apply_undo_roundtrip txC1 senderC1 rfl

/-- C2: applying twice equals applying once (as a transaction/account
pair); on a not-yet-applied transaction the first call subtracts the fee
and sets the `applied` flag; a call on an already-applied transaction
returns both arguments unchanged. -/
theorem apply_idempotent (tx : BaseTransaction) (sender : Account) :
    (BaseTransaction.apply (BaseTransaction.apply tx sender).1
        (BaseTransaction.apply tx sender).2 =
      BaseTransaction.apply tx sender) ∧
    (tx.applied = false →
      (BaseTransaction.apply tx sender).2 =
        { sender with balance := sender.balance - tx.fee } ∧
      (BaseTransaction.apply tx sender).1.applied = true) ∧
    (∀ t : BaseTransaction, ∀ u : Account, t.applied = true →
      BaseTransaction.apply t u = (t, u)) := by
  refine ⟨?_, ?_, ?_⟩
  · by_cases h : tx.applied <;> simp [BaseTransaction.apply, h]
  · intro h
    simp [BaseTransaction.apply, h]
  · intro t u h
    simp [BaseTransaction.apply, h]

/-- Witness for C2 at a concrete not-yet-applied transaction. -/
theorem apply_idempotent_witness :
    (BaseTransaction.apply txC1 senderC1).2 =
      { senderC1 with balance := senderC1.balance - txC1.fee } ∧
    (BaseTransaction.apply txC1 senderC1).1.applied = true :=
  (apply_idempotent txC1 senderC1).2.1 rfl

/-- C10: `apply` always leaves the flag set, `undo` returns the
transaction (hence the flag) unchanged — the flag is monotone — and after
an apply (and any number of undos) every further `apply` is a no-op on
both components while every further `undo` adds the fee to its argument's
balance again, so `undo` is not idempotent after a single apply. -/
theorem applied_flag_monotone (tx : BaseTransaction) (s s1 s2 : Account) :
    ((BaseTransaction.apply tx s).1.applied = true) ∧
    (∀ t : BaseTransaction, ∀ u : Account, (BaseTransaction.undo t u).1 = t) ∧
    (BaseTransaction.apply (BaseTransaction.apply tx s).1 s1 =
      ((BaseTransaction.apply tx s).1, s1)) ∧
    ((BaseTransaction.undo (BaseTransaction.apply tx s).1 s2).2.balance =
      s2.balance + tx.fee) := by
  refine ⟨?_, ?_, ?_, ?_⟩
  · by_cases h : tx.applied <;> simp [BaseTransaction.apply, h]
  · intro t u
    by_cases h : t.applied <;> simp [BaseTransaction.undo, h]
  · by_cases h : tx.applied <;> simp [BaseTransaction.apply, h]
  · by_cases h : tx.applied <;>
      simp [BaseTransaction.apply, BaseTransaction.undo, h]

/-- C8: the CandidateIndex key is the concatenation of the unpadded
decimal weight string and the delegate public key (separated by a colon),
and its lexicographic order disagrees with numeric weight order: the
weights 9 < 10 give, for every public key, a key for 9 that is
lexicographically greater than the key for 10. -/
theorem candidateKey_lex_mismatch :
    (9 : Int) < 10 ∧
    ∀ pk : String,
      candidateKey (toString (10 : Int)) pk < candidateKey (toString (9 : Int)) pk := by
  refine ⟨by decide, fun pk => ?_⟩
  have h10 : toString (10 : Int) = "10" := rfl
  have h9 : toString (9 : Int) = "9" := rfl
  rw [h10, h9, candidateKey, candidateKey, String.lt_iff_toList_lt]
  have h1 : ("10" ++ ":" ++ pk).toList = '1' :: '0' :: ':' :: pk.data := by
    simp [String.toList, String.data_append]
  have h2 : ("9" ++ ":" ++ pk).toList = '9' :: ':' :: pk.data := by
    simp [String.toList, String.data_append]
  rw [h1, h2]
  exact List.Lex.rel (by decide)

/-- Length of the fixed-size little-endian encoding. -/
theorem natToLEBytes_length (size v : Nat) : (natToLEBytes size v).length = size := by
  induction size generalizing v with
  | zero => rfl
  | succ n ih => simp [natToLEBytes, ih]

/-- C3 counterexample: on a transaction with no primary signature but a
present secondary signature, `getBytes` omits the secondary signature
bytes (because it reads both signature fields from `toJSON()`, which drops
the secondary one whenever the primary is missing), so the byte sequence
is not the claimed concatenation, which would append the secondary
signature bytes whenever they are present. -/
theorem getBytes_claim_counterexample :
    BaseTransaction.getBytes txC3 ≠ claimByteLayout txC3 := by
  decide

/-- C3 amended: `getBytes` is exactly the concatenation of the 1-byte
type, 4-byte little-endian timestamp, sender public key bytes (32 of them
for a well-formed key), 8-byte numeric recipient identifier (zero-filled
when absent), 8-byte little-endian amount, the primary signature bytes
(empty if absent or empty), and the secondary signature bytes (empty if
absent, empty, or when the primary signature is absent); the fee does not
contribute, and the total length is 53 bytes plus the signature parts. -/
theorem getBytes_amended_layout (tx : BaseTransaction) (f : Int)
    (h32 : tx.senderPublicKey.length = 32) :
    BaseTransaction.getBytes tx = amendedByteLayout tx ∧
    BaseTransaction.getBytes { tx with fee := f } = BaseTransaction.getBytes tx ∧
    (BaseTransaction.getBytes tx).length =
      53 + ((toJSONSignature tx).getD []).length +
        ((toJSONSignSignature tx).getD []).length := by
  refine ⟨?_, rfl, ?_⟩
  · simp only [BaseTransaction.getBytes, amendedByteLayout, BYTESIZES_TYPE,
      BYTESIZES_TIMESTAMP, BYTESIZES_RECIPIENT_ID, BYTESIZES_AMOUNT]
    cases toJSONSignature tx <;> cases toJSONSignSignature tx <;>
      simp [Option.getD]
  · simp only [BaseTransaction.getBytes, BYTESIZES_TYPE, BYTESIZES_TIMESTAMP,
      BYTESIZES_RECIPIENT_ID, BYTESIZES_AMOUNT, List.length_append]
    cases toJSONSignature tx <;> cases toJSONSignSignature tx <;>
      by_cases hr : tx.recipientId ≠ "" <;>
        simp [hr, natToLEBytes_length, writeIntLE4, bigNumberToBuffer,
          natToBEBytes, bigNumToBufferLE, h32]

/-- Witness for the amended byte-layout theorem at a concrete
transaction. -/
theorem getBytes_amended_layout_witness :
    BaseTransaction.getBytes txC3w = amendedByteLayout txC3w ∧
    BaseTransaction.getBytes { txC3w with fee := 99 } =
      BaseTransaction.getBytes txC3w ∧
    (BaseTransaction.getBytes txC3w).length =
      53 + ((toJSONSignature txC3w).getD []).length +
        ((toJSONSignSignature txC3w).getD []).length :=
  getBytes_amended_layout txC3w 99 (by decide)

/-- C7 counterexample: a transaction with a recognized type, a schema
violation, and a missing primary signature.  `validate` reports only the
missing-signature error: the mapped schema failure is absent from the
returned errors list, so the result is not an aggregate of all
failures. -/
theorem validate_shortcircuit_counterexample :
    (BaseTransaction.validate txC7 false (some [schemaErrC7]) false).validated
        = false ∧
    (BaseTransaction.validate txC7 false (some [schemaErrC7]) false).errors =
      some [{ message := "Cannot validate transaction without signature." }] ∧
    mapSchemaError schemaErrC7 ∉
      ((BaseTransaction.validate txC7 false (some [schemaErrC7]) false).errors.getD
        []) := by
  refine ⟨rfl, rfl, ?_⟩
  decide

/-- C7 amended: `validate` never throws (it is a total function into a
structured result), but it is not a full aggregate: an unrecognized type
short-circuits with only the type error; a missing (or empty) primary
signature short-circuits with only the missing-signature error,
discarding any collected schema errors; otherwise `validated` is the
conjunction of schema validity and cryptographic signature verification
while the errors list holds exactly the mapped schema errors — a failing
cryptographic check contributes no error entry. -/
theorem validate_amended_branches (tx : BaseTransaction) (schemaValid : Bool)
    (schemaErrors : Option (List SchemaError)) (sigVerified : Bool) :
    (tx.type ∉ TRANSACTION_TYPES →
      BaseTransaction.validate tx schemaValid schemaErrors sigVerified =
        { validated := false,
          errors := some [{ message := "Invalid transaction type." }] }) ∧
    (tx.type ∈ TRANSACTION_TYPES → nonemptyBytes tx.signature = none →
      BaseTransaction.validate tx schemaValid schemaErrors sigVerified =
        { validated := false,
          errors := some
            [{ message := "Cannot validate transaction without signature." }] }) ∧
    (tx.type ∈ TRANSACTION_TYPES →
      ∀ sig : List Nat, nonemptyBytes tx.signature = some sig →
        BaseTransaction.validate tx schemaValid schemaErrors sigVerified =
          { validated := schemaValid && sigVerified,
            errors := mapSchemaErrors schemaErrors }) := by
  refine ⟨?_, ?_, ?_⟩
  · intro h
    simp [BaseTransaction.validate, h]
  · intro h hsig
    simp [BaseTransaction.validate, h, hsig]
  · intro h sig hsig
    simp [BaseTransaction.validate, h, hsig]

/-- Witness for the amended `validate` claim at concrete inputs: the
signature-present branch with a failing schema check and a failing
cryptographic check. -/
theorem validate_amended_branches_witness :
    BaseTransaction.validate txC7w false (some [schemaErrC7]) false =
      { validated := false, errors := mapSchemaErrors (some [schemaErrC7]) } :=
  (validate_amended_branches txC7w false (some [schemaErrC7]) false).2.2
    (by decide) [4] rfl

/-- A single pending update on a present delegate succeeds, leaves the
transaction bucket alone, and rewrites exactly its own delegate's
account. -/
theorem settleTask_ok (s : StateStore) (t : DTask) (d : Account)
    (hd : s.accounts t.address = some d) :
    ∃ s1, settleTask s t = Except.ok s1 ∧
      s1.transactions = s.transactions ∧
      ∀ a, s1.accounts a =
        if a = t.address then
          some { d with votes := some (votesOr0 d.votes + t.delta) }
        else s.accounts a := by
  refine ⟨replaceCandidate
      (setAccount s t.address { d with votes := some (votesOr0 d.votes + t.delta) })
      (candidateKey (votesStr d.votes) d.publicKey)
      (candidateKey (toString (votesOr0 d.votes + t.delta)) d.publicKey)
      d.address, ?_, rfl, fun a => rfl⟩
  simp [settleTask, hd]

/-- Settling a list of pending per-delegate updates whose addresses are
pairwise distinct and all present in the store succeeds, leaves the
transaction bucket and every other account untouched, and adds each
update's delta to its own delegate's weight. -/
theorem settleTasks_spec (ts : List DTask) :
    ∀ s : StateStore, (ts.map DTask.address).Nodup →
      (∀ t ∈ ts, (s.accounts t.address).isSome) →
      ∃ s', settleTasks s ts = Except.ok s' ∧
        s'.transactions = s.transactions ∧
        (∀ a, a ∉ ts.map DTask.address → s'.accounts a = s.accounts a) ∧
        ∀ t ∈ ts, ∀ d, s.accounts t.address = some d →
          s'.accounts t.address =
            some { d with votes := some (votesOr0 d.votes + t.delta) } := by
  induction ts with
  | nil =>
    intro s _ _
    exact ⟨s, rfl, rfl, fun _ _ => rfl, by simp⟩
  | cons t ts ih =>
    intro s hnd hpres
    rw [List.map_cons] at hnd
    obtain ⟨d, hd⟩ :=
      Option.isSome_iff_exists.mp (hpres t (List.mem_cons_self t ts))
    have hmem : t.address ∉ ts.map DTask.address := (List.nodup_cons.mp hnd).1
    have hnd' : (ts.map DTask.address).Nodup := (List.nodup_cons.mp hnd).2
    obtain ⟨s1, hstep, htr1, hacc1⟩ := settleTask_ok s t d hd
    have hpres' : ∀ t' ∈ ts, (s1.accounts t'.address).isSome := by
      intro t' ht'
      have hne : t'.address ≠ t.address := by
        intro he
        exact hmem (he ▸ List.mem_map_of_mem DTask.address ht')
      rw [hacc1, if_neg hne]
      exact hpres t' (List.mem_cons_of_mem _ ht')
    obtain ⟨s', hrun, htr, hother, hupd⟩ := ih s1 hnd' hpres'
    refine ⟨s', ?_, ?_, ?_, ?_⟩
    · simp [settleTasks, hstep, hrun]
    · rw [htr, htr1]
    · intro a ha
      rw [List.map_cons] at ha
      have ha1 : a ∉ ts.map DTask.address := fun h => ha (List.mem_cons_of_mem _ h)
      have hane : a ≠ t.address := by
        intro he
        exact ha (he ▸ List.mem_cons_self _ _)
      rw [hother a ha1, hacc1, if_neg hane]
    · intro t' ht' dd hdd
      rcases List.mem_cons.mp ht' with he | hts
      · subst he
        have hdeq : dd = d := by
          rw [hd] at hdd
          exact (Option.some.inj hdd).symm
        subst hdeq
        rw [hother t'.address hmem, hacc1, if_pos rfl]
      · have hne : t'.address ≠ t.address := by
          intro he
          exact hmem (he ▸ List.mem_map_of_mem DTask.address hts)
        have hdd1 : s1.accounts t'.address = some dd := by
          rw [hacc1, if_neg hne]
          exact hdd
        exact hupd t' hts dd hdd1

/-- The delegate addresses of a uniform-delta task list. -/
theorem tasks_addresses (ls : List String) (δ : Int) :
    (ls.map (fun a => DTask.mk a δ)).map DTask.address = ls := by
  simp [List.map_map, Function.comp_def]

/-- Settling the uniform-delta task list an effect family fires over a
delegate address list: every listed delegate gains the delta, everything
else is untouched. -/
theorem settle_mapped_tasks (addrOf : String → String) (s : StateStore)
    (pks : List String) (δ : Int)
    (hnd : (pks.map addrOf).Nodup)
    (hpres : ∀ pk ∈ pks, (s.accounts (addrOf pk)).isSome) :
    ∃ s', settleTasks s ((pks.map addrOf).map (fun a => DTask.mk a δ)) =
        Except.ok s' ∧
      s'.transactions = s.transactions ∧
      (∀ a, a ∉ pks.map addrOf → s'.accounts a = s.accounts a) ∧
      ∀ pk ∈ pks, ∀ d, s.accounts (addrOf pk) = some d →
        s'.accounts (addrOf pk) =
          some { d with votes := some (votesOr0 d.votes + δ) } := by
  obtain ⟨s', hrun, htr, hother, hupd⟩ :=
    settleTasks_spec ((pks.map addrOf).map (fun a => DTask.mk a δ)) s
      (by rw [tasks_addresses]; exact hnd)
      (by
        intro t ht
        obtain ⟨a, ha, hta⟩ := List.mem_map.mp ht
        obtain ⟨pk, hpk, hapk⟩ := List.mem_map.mp ha
        subst hta
        subst hapk
        exact hpres pk hpk)
  refine ⟨s', hrun, htr, ?_, ?_⟩
  · intro a ha
    exact hother a (by rwa [tasks_addresses])
  · intro pk hpk d hd
    have hmem : DTask.mk (addrOf pk) δ ∈
        (pks.map addrOf).map (fun a => DTask.mk a δ) :=
      List.mem_map_of_mem _ (List.mem_map_of_mem addrOf hpk)
    exact hupd (DTask.mk (addrOf pk) δ) hmem d hd

/-- C6: the fee effect has no type gate — for a transaction of any type,
once settled, `applyFee` subtracts the fee from the weight of every
delegate the sender currently votes for and `undoFee` adds it back, while
every account other than those delegates is unchanged by this family. -/
theorem fee_effect_all_types (addrOf : String → String) (s : StateStore)
    (tx : Transaction) (sender : Account) (pks : List String)
    (hs : s.accounts tx.senderId = some sender)
    (hpks : sender.votedDelegatesPublicKeys = some pks)
    (hnd : (pks.map addrOf).Nodup)
    (hpres : ∀ pk ∈ pks, (s.accounts (addrOf pk)).isSome) :
    (∃ s', applyFeeSettled addrOf s tx = Except.ok s' ∧
      (∀ pk ∈ pks, ∀ d, s.accounts (addrOf pk) = some d →
        s'.accounts (addrOf pk) =
          some { d with votes := some (votesOr0 d.votes - tx.fee) }) ∧
      ∀ a, a ∉ pks.map addrOf → s'.accounts a = s.accounts a) ∧
    ∃ s2, undoFeeSettled addrOf s tx = Except.ok s2 ∧
      (∀ pk ∈ pks, ∀ d, s.accounts (addrOf pk) = some d →
        s2.accounts (addrOf pk) =
          some { d with votes := some (votesOr0 d.votes + tx.fee) }) ∧
      ∀ a, a ∉ pks.map addrOf → s2.accounts a = s.accounts a := by
  constructor
  · obtain ⟨s', hrun, _, hother, hupd⟩ :=
      settle_mapped_tasks addrOf s pks (-tx.fee) hnd hpres
    rw [List.map_map] at hrun
    refine ⟨s', ?_, ?_, hother⟩
    · simp [applyFeeSettled, applyFeeTasks, hs, hpks, hrun]
    · intro pk hpk d hd
      simpa [sub_eq_add_neg] using hupd pk hpk d hd
  · obtain ⟨s2, hrun, _, hother, hupd⟩ :=
      settle_mapped_tasks addrOf s pks tx.fee hnd hpres
    rw [List.map_map] at hrun
    exact ⟨s2, by simp [undoFeeSettled, undoFeeTasks, hs, hpks, hrun], hupd,
      hother⟩

/-- Witness for the fee effect, applied to a concrete non-transfer,
non-vote transaction (type 1) — the family fires for it too. -/
theorem fee_effect_all_types_witness :
    ∃ s', applyFeeSettled id storeC6 txC6 = Except.ok s' ∧
      (∀ pk ∈ ["pF"], ∀ d, storeC6.accounts (id pk) = some d →
        s'.accounts (id pk) =
          some { d with votes := some (votesOr0 d.votes - txC6.fee) }) ∧
      ∀ a, a ∉ ["pF"].map id → s'.accounts a = storeC6.accounts a :=
  (fee_effect_all_types id storeC6 txC6 senderC6 ["pF"] (by decide) (by decide)
    (by decide) (by decide)).1

/-- C5: for an in-transfer transaction, the amount effect resolves the
real recipient through the transaction bucket — the prior transaction
referenced by `asset.inTransfer.dappId` — and uses that transaction's
sender: the nominal `recipientId` field is never read (changing it changes
nothing), and once settled the accounts that change are exactly the
delegates voted for by the resolved account, by `+amount` on apply and
`-amount` on undo. -/
theorem inTransfer_resolves_dapp_sender (addrOf : String → String)
    (s : StateStore) (tx : Transaction) (it : InTransferAsset)
    (dappTx : Transaction) (A : Account) (pks : List String)
    (htype : tx.type = TRANSACTION_TYPE_IN_TRANSFER)
    (hasset : tx.asset.inTransfer = some it)
    (hdapp : s.transactions it.dappId = some dappTx)
    (hA : s.accounts dappTx.senderId = some A)
    (hpks : A.votedDelegatesPublicKeys = some pks)
    (hnd : (pks.map addrOf).Nodup)
    (hpres : ∀ pk ∈ pks, (s.accounts (addrOf pk)).isSome) :
    (∀ r, applyAmountTasks addrOf s { tx with recipientId := r } =
        applyAmountTasks addrOf s tx ∧
      undoAmountTasks addrOf s { tx with recipientId := r } =
        undoAmountTasks addrOf s tx) ∧
    (∃ s', applyAmountSettled addrOf s tx = Except.ok s' ∧
      (∀ pk ∈ pks, ∀ d, s.accounts (addrOf pk) = some d →
        s'.accounts (addrOf pk) =
          some { d with votes := some (votesOr0 d.votes + tx.amount) }) ∧
      ∀ a, a ∉ pks.map addrOf → s'.accounts a = s.accounts a) ∧
    ∃ s2, undoAmountSettled addrOf s tx = Except.ok s2 ∧
      (∀ pk ∈ pks, ∀ d, s.accounts (addrOf pk) = some d →
        s2.accounts (addrOf pk) =
          some { d with votes := some (votesOr0 d.votes - tx.amount) }) ∧
      ∀ a, a ∉ pks.map addrOf → s2.accounts a = s.accounts a := by
  have happly : applyAmountTasks addrOf s tx =
      Except.ok ((pks.map addrOf).map (fun a => DTask.mk a tx.amount)) := by
    simp [applyAmountTasks, resolveAmountRecipientId, htype, hasset, hdapp, hA,
      hpks, transferTypes, TRANSACTION_TYPE_TRANSFER,
      TRANSACTION_TYPE_IN_TRANSFER, TRANSACTION_TYPE_OUT_TRANSFER]
  have hundo : undoAmountTasks addrOf s tx =
      Except.ok ((pks.map addrOf).map (fun a => DTask.mk a (-tx.amount))) := by
    simp [undoAmountTasks, resolveAmountRecipientId, htype, hasset, hdapp, hA,
      hpks, transferTypes, TRANSACTION_TYPE_TRANSFER,
      TRANSACTION_TYPE_IN_TRANSFER, TRANSACTION_TYPE_OUT_TRANSFER]
  refine ⟨?_, ?_, ?_⟩
  · intro r
    constructor <;>
      simp [applyAmountTasks, undoAmountTasks, resolveAmountRecipientId, htype,
        hasset, hdapp, hA, hpks, transferTypes, TRANSACTION_TYPE_TRANSFER,
        TRANSACTION_TYPE_IN_TRANSFER, TRANSACTION_TYPE_OUT_TRANSFER]
  · obtain ⟨s', hrun, _, hother, hupd⟩ :=
      settle_mapped_tasks addrOf s pks tx.amount hnd hpres
    rw [List.map_map] at hrun
    refine ⟨s', ?_, hupd, hother⟩
    rw [applyAmountSettled, happly, ← hrun, List.map_map]
  · obtain ⟨s2, hrun, _, hother, hupd⟩ :=
      settle_mapped_tasks addrOf s pks (-tx.amount) hnd hpres
    rw [List.map_map] at hrun
    refine ⟨s2, ?_, ?_, hother⟩
    · rw [undoAmountSettled, hundo, ← hrun, List.map_map]
    · intro pk hpk d hd
      simpa [sub_eq_add_neg] using hupd pk hpk d hd

/-- Witness for the in-transfer resolution at a concrete store: the
resolved account `A5` votes for delegate `pX`; the nominal recipient `N5`
votes for `pY`, which stays untouched. -/
theorem inTransfer_resolves_dapp_sender_witness :
    (∀ r, applyAmountTasks id storeC5 { txC5 with recipientId := r } =
        applyAmountTasks id storeC5 txC5 ∧
      undoAmountTasks id storeC5 { txC5 with recipientId := r } =
        undoAmountTasks id storeC5 txC5) ∧
    (∃ s', applyAmountSettled id storeC5 txC5 = Except.ok s' ∧
      (∀ pk ∈ ["pX"], ∀ d, storeC5.accounts (id pk) = some d →
        s'.accounts (id pk) =
          some { d with votes := some (votesOr0 d.votes + txC5.amount) }) ∧
      ∀ a, a ∉ ["pX"].map id → s'.accounts a = storeC5.accounts a) ∧
    ∃ s2, undoAmountSettled id storeC5 txC5 = Except.ok s2 ∧
      (∀ pk ∈ ["pX"], ∀ d, storeC5.accounts (id pk) = some d →
        s2.accounts (id pk) =
          some { d with votes := some (votesOr0 d.votes - txC5.amount) }) ∧
      ∀ a, a ∉ ["pX"].map id → s2.accounts a = storeC5.accounts a :=
  inTransfer_resolves_dapp_sender id storeC5 txC5 { dappId := "dapp5" }
    dappTxC5 resolvedC5 ["pX"] rfl (by decide) (by decide) (by decide)
    (by decide) (by decide) (by decide)

/-- Sign character of an upvote directive. -/
theorem signedVoteSign_plus (p : String) :
    signedVoteSign ("+" ++ p) = some '+' := by
  simp [signedVoteSign, String.data_append]

/-- Sign character of a downvote directive. -/
theorem signedVoteSign_minus (p : String) :
    signedVoteSign ("-" ++ p) = some '-' := by
  simp [signedVoteSign, String.data_append]

/-- Public key extracted from an upvote directive. -/
theorem signedVotePublicKey_plus (p : String) :
    signedVotePublicKey ("+" ++ p) = p := by
  simp [signedVotePublicKey, String.data_append]

/-- Public key extracted from a downvote directive. -/
theorem signedVotePublicKey_minus (p : String) :
    signedVotePublicKey ("-" ++ p) = p := by
  simp [signedVotePublicKey, String.data_append]

/-- C4: the new-vote effect family on a vote transaction carrying exactly
one upvote for delegate 1 and one downvote for delegate 2, with sender
balance `B` and fee `F`: once settled, apply changes delegate 1's weight
by `+B` and delegate 2's weight by `F - B`; undoing on the resulting store
changes them by `-B` and `B - F`, restoring both delegate accounts
exactly. -/
theorem newVote_netting (addrOf : String → String) (s : StateStore)
    (tx : Transaction) (pk1 pk2 : String) (sender d1 d2 : Account)
    (v1 v2 : Int)
    (htype : tx.type = TRANSACTION_TYPE_VOTE)
    (hvotes : tx.asset.votes = some ["+" ++ pk1, "-" ++ pk2])
    (hs : s.accounts tx.senderId = some sender)
    (hd1 : s.accounts (addrOf pk1) = some d1) (hv1 : d1.votes = some v1)
    (hd2 : s.accounts (addrOf pk2) = some d2) (hv2 : d2.votes = some v2)
    (h12 : addrOf pk1 ≠ addrOf pk2)
    (hs1 : tx.senderId ≠ addrOf pk1) (hs2 : tx.senderId ≠ addrOf pk2) :
    ∃ s', applyNewVoteSettled addrOf s tx = Except.ok s' ∧
      s'.accounts (addrOf pk1) =
        some { d1 with votes := some (v1 + sender.balance) } ∧
      s'.accounts (addrOf pk2) =
        some { d2 with votes := some (v2 + (tx.fee - sender.balance)) } ∧
      ∃ s'', undoNewVoteSettled addrOf s' tx = Except.ok s'' ∧
        s''.accounts (addrOf pk1) = some d1 ∧
        s''.accounts (addrOf pk2) = some d2 := by
  have hup : upvoteAddresses addrOf ["+" ++ pk1, "-" ++ pk2] = [addrOf pk1] := by
    simp [upvoteAddresses, signedVoteSign_plus, signedVoteSign_minus,
      signedVotePublicKey_plus]
  have hdn : downvoteAddresses addrOf ["+" ++ pk1, "-" ++ pk2] = [addrOf pk2] := by
    simp [downvoteAddresses, signedVoteSign_plus, signedVoteSign_minus,
      signedVotePublicKey_minus]
  have htasks : applyNewVoteTasks addrOf s tx =
      Except.ok [DTask.mk (addrOf pk1) sender.balance,
        DTask.mk (addrOf pk2) (-sender.balance + tx.fee)] := by
    simp [applyNewVoteTasks, htype, hs, hvotes, hup, hdn]
  obtain ⟨s', hrun, _, hother, hupd⟩ :=
    settleTasks_spec [DTask.mk (addrOf pk1) sender.balance,
      DTask.mk (addrOf pk2) (-sender.balance + tx.fee)] s
      (by simp [h12])
      (by
        intro t ht
        rcases List.mem_cons.mp ht with he | ht2
        · subst he
          simp [hd1]
        · rcases List.mem_cons.mp ht2 with he | ht3
          · subst he
            simp [hd2]
          · simp at ht3)
  have ha1 : s'.accounts (addrOf pk1) =
      some { d1 with votes := some (v1 + sender.balance) } := by
    have := hupd (DTask.mk (addrOf pk1) sender.balance) (by simp) d1 hd1
    simpa [votesOr0, hv1] using this
  have ha2 : s'.accounts (addrOf pk2) =
      some { d2 with votes := some (v2 + (tx.fee - sender.balance)) } := by
    have := hupd (DTask.mk (addrOf pk2) (-sender.balance + tx.fee)) (by simp) d2 hd2
    have harith : v2 + (-sender.balance + tx.fee) = v2 + (tx.fee - sender.balance) := by
      ring
    simpa [votesOr0, hv2, harith] using this
  have hsender' : s'.accounts tx.senderId = some sender := by
    rw [hother tx.senderId (by simp [hs1, hs2])]
    exact hs
  have htasks2 : undoNewVoteTasks addrOf s' tx =
      Except.ok [DTask.mk (addrOf pk1) (-sender.balance),
        DTask.mk (addrOf pk2) (sender.balance - tx.fee)] := by
    simp [undoNewVoteTasks, htype, hsender', hvotes, hup, hdn]
  obtain ⟨s'', hrun2, _, hother2, hupd2⟩ :=
    settleTasks_spec [DTask.mk (addrOf pk1) (-sender.balance),
      DTask.mk (addrOf pk2) (sender.balance - tx.fee)] s'
      (by simp [h12])
      (by
        intro t ht
        rcases List.mem_cons.mp ht with he | ht2
        · subst he
          simp [ha1]
        · rcases List.mem_cons.mp ht2 with he | ht3
          · subst he
            simp [ha2]
          · simp at ht3)
  refine ⟨s', ?_, ha1, ha2, s'', ?_, ?_, ?_⟩
  · simp [applyNewVoteSettled, htasks, hrun]
  · simp [undoNewVoteSettled, htasks2, hrun2]
  · have := hupd2 (DTask.mk (addrOf pk1) (-sender.balance)) (by simp)
      { d1 with votes := some (v1 + sender.balance) } ha1
    have harith : v1 + sender.balance + -sender.balance = v1 := by ring
    rw [this]
    simp only [votesOr0, Option.getD_some, harith]
    rw [← hv1]
  · have := hupd2 (DTask.mk (addrOf pk2) (sender.balance - tx.fee)) (by simp)
      { d2 with votes := some (v2 + (tx.fee - sender.balance)) } ha2
    have harith : v2 + (tx.fee - sender.balance) + (sender.balance - tx.fee) = v2 := by
      ring
    rw [this]
    simp only [votesOr0, Option.getD_some, harith]
    rw [← hv2]

/-- Witness for the vote-netting theorem at a concrete store: upvoted
delegate `p1` (weight 2000), downvoted delegate `p2` (weight 3000), sender
balance 1000, fee 10. -/
theorem newVote_netting_witness :
    ∃ s', applyNewVoteSettled id storeC4 txC4 = Except.ok s' ∧
      s'.accounts (id "p1") =
        some { delegate1C4 with votes := some (2000 + senderC4.balance) } ∧
      s'.accounts (id "p2") =
        some { delegate2C4 with votes := some (3000 + (txC4.fee - senderC4.balance)) } ∧
      ∃ s'', undoNewVoteSettled id s' txC4 = Except.ok s'' ∧
        s''.accounts (id "p1") = some delegate1C4 ∧
        s''.accounts (id "p2") = some delegate2C4 :=
  newVote_netting id storeC4 txC4 "p1" "p2" senderC4 delegate1C4 delegate2C4
    2000 3000 rfl (by decide) (by decide) (by decide) (by decide) (by decide)
    (by decide) (by decide) (by decide) (by decide)

/-- C9 (failing-input demonstration): on a plain transfer whose recipient
votes for delegate `D9`, the promise returned by `applyVote` resolves while
the per-delegate update is still pending — every `store.set`/`replace` of
the three families sits inside an `async` `forEach` callback that nothing
awaits, so at resolution time the store is still the input store
(`storeC9.accounts "D9"` still holds the old weight 0), the pending task
list is nonempty, and only after the detached callbacks later settle does
`D9`'s account change to weight 50.  The claim that the promise resolves
only after every per-delegate account write has completed is therefore
false of the code, against the spec's stated completion-barrier intent. -/
theorem applyVote_resolves_before_writes :
    applyVoteResolvedTasks id storeC9 txC9 = Except.ok [DTask.mk "D9" 50] ∧
    storeC9.accounts "D9" = some delegateC9 ∧
    Except.map (fun st : StateStore => st.accounts "D9")
        (settleTasks storeC9 [DTask.mk "D9" 50]) =
      Except.ok (some { delegateC9 with votes := some 50 }) ∧
    ({ delegateC9 with votes := some 50 } : Account) ≠ delegateC9 := by
  refine ⟨?_, ?_, ?_, ?_⟩
  · rfl
  · rfl
  · rfl
  · decide

end LiskJS
